import Mathlib

/-!
Verification of the event-listing application (`event_notifier_project/app.py`)
against its specification.  The Python source is shallowly embedded: JSON
records and web-form data become association lists from `String` to `String`,
dates become a `Date` structure produced by a faithful model of
`datetime.strptime(s, "%Y-%m-%d")`, and the mutable SQLAlchemy session becomes
explicit state passing (staged rows, a commit flag, and an `Except`-style
propagated exception where the Python would raise).
-/

deriving instance DecidableEq for Except

namespace EventDB

/-- Calendar date with no time component, as `datetime.date` holds it. -/
structure Date where
  year : Nat
  month : Nat
  day : Nat
deriving DecidableEq, Repr

/-- Gregorian leap-year rule used by `datetime.date` validation. -/
def isLeapYear (y : Nat) : Bool :=
  y % 4 == 0 && (y % 100 != 0 || y % 400 == 0)

/-- Number of days in a month, as `datetime.date` validates the day field. -/
def daysInMonth (y m : Nat) : Nat :=
  if m = 2 then (if isLeapYear y then 29 else 28)
  else if m = 4 ∨ m = 6 ∨ m = 9 ∨ m = 11 then 30
  else 31

/-- Split a character list at every `'-'` (models the structure the
`"%Y-%m-%d"` format string imposes: three fields joined by literal dashes). -/
def splitDash : List Char → List (List Char)
  | [] => [[]]
  | c :: cs =>
    let rest := splitDash cs
    if c = '-' then [] :: rest
    else
      match rest with
      | [] => [[c]]
      | g :: gs => (c :: g) :: gs

/-- True when the list is a nonempty run of ASCII digits. -/
def isDigits (cs : List Char) : Bool :=
  !cs.isEmpty && cs.all (fun c => c.isDigit)

/-- Numeric value of a digit run. -/
def digitsVal (cs : List Char) : Nat :=
  cs.foldl (fun a c => a * 10 + (c.toNat - 48)) 0

/-- Model of `datetime.strptime(s, "%Y-%m-%d").date()`: `%Y` matches exactly
four digits, `%m` and `%d` match one or two digits, the dashes are literal,
no characters may remain, and `datetime.date` then validates the ranges
(year ≥ 1, month 1–12, day within the month, Gregorian leap years).
Any failure raises in Python; here it returns `none`. -/
def parseDate (s : String) : Option Date :=
  match splitDash s.data with
  | [y, m, d] =>
    if isDigits y && y.length == 4 && isDigits m && m.length ≤ 2
        && isDigits d && d.length ≤ 2 then
      let yv := digitsVal y
      let mv := digitsVal m
      let dv := digitsVal d
      if 1 ≤ yv ∧ 1 ≤ mv ∧ mv ≤ 12 ∧ 1 ≤ dv ∧ dv ≤ daysInMonth yv mv then
        some ⟨yv, mv, dv⟩
      else none
    else none
  | _ => none

/-- `datetime.date` comparison: lexicographic on (year, month, day). -/
def dateLe (a b : Date) : Bool :=
  decide (a.year < b.year ∨ (a.year = b.year ∧
    (a.month < b.month ∨ (a.month = b.month ∧ a.day ≤ b.day))))

/-- One row of the `event` table (`event_id` is store-assigned and omitted;
fields in the source's column order). -/
structure Event where
  title : String
  description : String
  location : String
  start_date : Date
  end_date : Date
  category_id : Int
deriving DecidableEq, Repr

/-- One JSON record / one web form: a finite map from keys to string values,
as an association list (`item.get(k)` = first binding of `k`). -/
abbrev Record := List (String × String)

/-- The loader's `key_map` argument: logical field name ↦ source key. -/
abbrev KeyMap := List (String × String)

/-- Python truthiness test `not x` applied to an optional string:
true for `None` and for the empty string. -/
def isBlank : Option String → Bool
  | none => true
  | some s => s == ""

/-- Outcome of the loader's per-record loop body in `load_data_into_db`:
a row staged via `db.session.add` (`staged`), the inner `continue` for
missing/empty/unparseable dates (`skipped`), the outer `except` branch whose
`print` succeeds (`logged`), or the outer `except` branch whose `print`
itself re-raises `KeyError` because `key_map['title']` is absent, which
propagates out of the loop (`abort`). -/
inductive RecResult where
  | staged (e : Event)
  | skipped
  | logged
  | abort
deriving DecidableEq, Repr

/-- Body of the `for item in data_list` loop of `load_data_into_db`
(source lines 55–87), translated clause by clause. -/
def processRecord (item : Record) (cat_id : Int) (key_map : KeyMap) : RecResult :=
  match key_map.lookup "title" with
  | none => .abort
  | some tk =>
    let api_title := (item.lookup tk).getD "제목 없음"
    match key_map.lookup "location" with
    | none => .logged
    | some lk =>
      let api_location := (item.lookup lk).getD "위치 미상"
      match key_map.lookup "description" with
      | none => .logged
      | some dk =>
        let api_description := (item.lookup dk).getD ""
        match key_map.lookup "start_date" with
        | none => .logged
        | some sk =>
          match key_map.lookup "end_date" with
          | none => .logged
          | some ek =>
            let start_date_raw := item.lookup sk
            let end_date_raw := item.lookup ek
            if isBlank start_date_raw || isBlank end_date_raw then .skipped
            else
              match parseDate (start_date_raw.getD ""),
                    parseDate (end_date_raw.getD "") with
              | some sd, some ed =>
                .staged ⟨api_title, api_description, api_location, sd, ed, cat_id⟩
              | _, _ => .skipped

/-- Result of a whole `load_data_into_db` call: `returned staged count
committed` models a normal return (with the rows staged in the session, the
returned count, and whether `db.session.commit()` ran), while `raised staged`
models an exception escaping the loop before the commit line. -/
inductive LoadOutcome where
  | returned (staged : List Event) (count : Nat) (committed : Bool)
  | raised (staged : List Event)
deriving DecidableEq, Repr

/-- The record loop of `load_data_into_db` with the session's staged rows and
the running `count` made explicit. -/
def loadGo (cat_id : Int) (key_map : KeyMap) :
    List Record → List Event → Nat → LoadOutcome
  | [], staged, count => .returned staged count true
  | item :: rest, staged, count =>
    match processRecord item cat_id key_map with
    | .staged e => loadGo cat_id key_map rest (staged ++ [e]) (count + 1)
    | .skipped => loadGo cat_id key_map rest staged count
    | .logged => loadGo cat_id key_map rest staged count
    | .abort => .raised staged

/-- `load_data_into_db(data_list, cat_id, key_map)` (source lines 48–90):
an empty list returns 0 immediately with no commit; otherwise the loop runs
and `db.session.commit()` executes after it. -/
def load_data_into_db (data_list : List Record) (cat_id : Int)
    (key_map : KeyMap) : LoadOutcome :=
  if data_list.isEmpty then .returned [] 0 false
  else loadGo cat_id key_map data_list [] 0

/-- Contents of the persisted SQLite store when the file exists: the
`category` table (row names, in insertion order) and the `event` table. -/
structure Store where
  categories : List String
  events : List Event
deriving DecidableEq, Repr

/-- `categories_list` of `init_db` (source line 126): the fixed seed list. -/
def categories_list : List String :=
  ["축제", "팝업 스토어", "할인 행사", "전시", "공연"]

/-- One iteration of the seeding loop (source lines 127–130): insert the name
only when no `Category` row with that `category_name` exists. -/
def seedStep (acc : List String) (name : String) : List String :=
  if name ∈ acc then acc else acc ++ [name]

/-- The whole category-seeding loop of `init_db` over the fixed list. -/
def seedCategories (cats : List String) : List String :=
  categories_list.foldl seedStep cats

/-- `category_map.get(name)` (source line 135): the id of the named category.
SQLite assigns ids 1, 2, … in insertion order for a store this app built. -/
def categoryId (cats : List String) (name : String) : Option Nat :=
  (cats.findIdx? (fun c => c == name)).map (fun i => i + 1)

/-- `festival_key_map` (source lines 145–151). -/
def festival_key_map : KeyMap :=
  [("title", "축제명"), ("location", "개최장소"),
   ("start_date", "축제시작일자"), ("end_date", "축제종료일자"),
   ("description", "축제내용")]

/-- `performance_key_map` (source lines 166–172). -/
def performance_key_map : KeyMap :=
  [("title", "행사명"), ("location", "장소"),
   ("start_date", "행사시작일자"), ("end_date", "행사종료일자"),
   ("description", "행사내용")]

/-- What `Category.query` sees: no file ⇒ no rows. -/
def categoriesOf : Option Store → List String
  | none => []
  | some s => s.categories

/-- What `Event.query` sees: no file ⇒ no rows. -/
def eventsOf : Option Store → List Event
  | none => []
  | some s => s.events

/-- One dataset block of `init_db` (source lines 153–156 and 174–177):
`if data and cat_id is not None: load_data_into_db(...)`.  Python's truthiness
on `data` means a `None` result or an empty record list skips the load.  A
`raised` load outcome propagates out of `init_db` (`error`). -/
def importDataset (events : List Event) (cats : List String) (catName : String)
    (km : KeyMap) (data : Option (List Record)) : Except Unit (List Event) :=
  match data with
  | none => .ok events
  | some d =>
    if d.isEmpty then .ok events
    else
      match categoryId cats catName with
      | none => .ok events
      | some cid =>
        match load_data_into_db d (Int.ofNat cid) km with
        | .returned staged _ _ => .ok (events ++ staged)
        | .raised _ => .error ()

/-- The rebuild branch of `init_db` (source lines 120–177): `db.create_all()`
(store comes to exist, existing rows kept), seed the fixed categories, then
load the festival and performance datasets.  `fd`/`pd` stand for the results
of the two `load_json_file` calls. -/
def initRebuild (os : Option Store) (fd pd : Option (List Record)) :
    Except Unit (Option Store) :=
  let s0 : Store := os.getD ⟨[], []⟩
  let cats := seedCategories s0.categories
  match importDataset s0.events cats "축제" festival_key_map fd with
  | .error e => .error e
  | .ok ev1 =>
    match importDataset ev1 cats "공연" performance_key_map pd with
    | .error e => .error e
    | .ok ev2 => .ok (some ⟨cats, ev2⟩)

/-- `init_db()` (source lines 108–180), with the filesystem/session state made
explicit: `os` is the store (`none` = the SQLite file does not exist), and
`fd`, `pd` are the two datasets `load_json_file` would return.
Line 109 sets `db_needs_recreate`; lines 111–118 delete the file when it
exists, has a nonempty `category` table, and the category count differs
from 5; line 120 enters the rebuild branch when `db_needs_recreate` is set or
the `event` table is empty; otherwise the existing store is used as is. -/
def init_db (os : Option Store) (fd pd : Option (List Record)) :
    Except Unit (Option Store) :=
  let db_needs_recreate := !os.isSome || (categoriesOf os).isEmpty
  let removed := os.isSome && !db_needs_recreate
      && ((categoriesOf os).length != 5)
  let os1 := if removed then none else os
  if db_needs_recreate || removed || (eventsOf os1).isEmpty then
    initRebuild os1 fd pd
  else
    .ok os1

/-- Parse of Python `int(s)` as the route handlers use it on
`request.form['category_id']`: an optional sign followed by decimal digits.
(Python's `int` additionally strips surrounding whitespace and allows digit
grouping underscores; no property here depends on those inputs.) -/
def parseIntStr (s : String) : Option Int :=
  match s.data with
  | [] => none
  | '-' :: rest => if isDigits rest then some (-(digitsVal rest : Int)) else none
  | '+' :: rest => if isDigits rest then some ((digitsVal rest : Int)) else none
  | cs => if isDigits cs then some ((digitsVal cs : Int)) else none

/-- Ordering the `order_by(Event.start_date.asc())` clause sorts by. -/
def startLe (a b : Event) : Prop := dateLe a.start_date b.start_date = true

instance : DecidableRel startLe := fun a b => by
  unfold startLe; infer_instance

/-- `event_list()`'s query (source line 189):
`Event.query.filter(Event.end_date >= today).order_by(Event.start_date.asc())`
over the stored events. -/
def event_list (events : List Event) (today : Date) : List Event :=
  List.insertionSort startLe
    (events.filter (fun e => dateLe today e.end_date))

/-- The POST branch of `event_detail` (source lines 220–232): read and parse
the form fields in source order (`title`, `description`, `location`,
`start_date`, `end_date`, `category_id`); any missing key (`KeyError`),
unparseable date (`ValueError`), or non-integer category id raises, giving
`error`; otherwise the fully updated event is committed. -/
def event_detail_post (form : Record) : Except Unit Event :=
  match form.lookup "title" with
  | none => .error ()
  | some title =>
    let description := (form.lookup "description").getD ""
    match form.lookup "location" with
    | none => .error ()
    | some location =>
      match form.lookup "start_date" with
      | none => .error ()
      | some sds =>
        match parseDate sds with
        | none => .error ()
        | some sd =>
          match form.lookup "end_date" with
          | none => .error ()
          | some eds =>
            match parseDate eds with
            | none => .error ()
            | some ed =>
              match form.lookup "category_id" with
              | none => .error ()
              | some cs =>
                match parseIntStr cs with
                | none => .error ()
                | some cid => .ok ⟨title, description, location, sd, ed, cid⟩

/-- The stored row after the POST branch of `event_detail`: on success the
commit makes the fully updated event durable; on any exception
`db.session.rollback()` reverts every pending field assignment, leaving the
stored event as it was. -/
def event_detail_stored (event : Event) (form : Record) : Event :=
  match event_detail_post form with
  | .error _ => event
  | .ok e => e

/-- The condition under which `init_db` actually enters its rebuild branch,
read off lines 109–120 of the source: store missing, or `category` table
empty, or category count different from 5, or `event` table empty. -/
def initTriggered : Option Store → Bool
  | none => true
  | some s =>
    s.categories.isEmpty || (s.categories.length != 5) || s.events.isEmpty

/-- The `os.remove(db_path)` of lines 115–116: the store is deleted exactly
when it exists with a nonempty `category` table whose row count is not 5. -/
def removeIfStale : Option Store → Option Store
  | none => none
  | some s =>
    if !s.categories.isEmpty && (s.categories.length != 5) then none
    else some s

/-- A well-formed field map for witnesses: each of the five logical fields is
bound to a single-letter source key. -/
def demoKeyMap : KeyMap :=
  [("title", "t"), ("location", "l"), ("start_date", "s"),
   ("end_date", "e"), ("description", "d")]

/-- A sample stored event used in witnesses. -/
def demoEvent : Event :=
  ⟨"t", "d", "l", ⟨2025, 1, 1⟩, ⟨2025, 1, 2⟩, 1⟩

/-- The tail of the per-record loop body once all five logical field names
have resolved in the field map to `tk`, `lk`, `dk`, `sk`, `ek`; proved equal
to `processRecord` under those resolutions in `processRecord_eq_recCore`. -/
def recCore (item : Record) (cat_id : Int) (tk lk dk sk ek : String) : RecResult :=
  let start_date_raw := item.lookup sk
  let end_date_raw := item.lookup ek
  if isBlank start_date_raw || isBlank end_date_raw then .skipped
  else
    match parseDate (start_date_raw.getD ""), parseDate (end_date_raw.getD "") with
    | some sd, some ed =>
      .staged ⟨(item.lookup tk).getD "제목 없음", (item.lookup dk).getD "",
               (item.lookup lk).getD "위치 미상", sd, ed, cat_id⟩
    | _, _ => .skipped

instance : IsTotal Event startLe := by
  constructor
  intro a b
  simp only [startLe, dateLe, decide_eq_true_eq]
  omega

instance : IsTrans Event startLe := by
  constructor
  intro a b c
  simp only [startLe, dateLe, decide_eq_true_eq]
  omega

end EventDB


namespace EventDB

theorem loadGo_count_inv (cat_id : Int) (km : KeyMap) :
    ∀ (data : List Record) (acc st : List Event) (n : Nat) (c : Bool),
      loadGo cat_id km data acc acc.length = .returned st n c → n = st.length := by
  intro data
  induction data with
  | nil =>
    intro acc st n c h
    simp only [loadGo] at h
    cases h
    rfl
  | cons item rest ih =>
    intro acc st n c h
    simp only [loadGo] at h
    cases hp : processRecord item cat_id km <;> rw [hp] at h
    case staged e =>
      refine ih (acc ++ [e]) st n c ?_
      rw [List.length_append, List.length_singleton]
      exact h
    case skipped => exact ih acc st n c h
    case logged => exact ih acc st n c h
    case abort => exact LoadOutcome.noConfusion h

/-- Claim C1: for every input list of records, category id and field map, the
count returned by `load_data_into_db` equals the number of `Event` rows it
staged for insertion, for any mix of valid and invalid records. -/
theorem C1_count_eq_staged (data_list : List Record) (cat_id : Int)
    (key_map : KeyMap) (st : List Event) (n : Nat) (c : Bool)
    (h : load_data_into_db data_list cat_id key_map = .returned st n c) :
    n = st.length := by
  unfold load_data_into_db at h
  by_cases he : data_list.isEmpty
  · rw [if_pos he] at h
    cases h
    rfl
  · rw [if_neg he] at h
    exact loadGo_count_inv cat_id key_map data_list [] st n c h

theorem C1_witness :
    load_data_into_db [[("t", "A"), ("s", "2025-01-01"), ("e", "2025-01-02")]]
        4 demoKeyMap
      = .returned [⟨"A", "", "위치 미상", ⟨2025, 1, 1⟩, ⟨2025, 1, 2⟩, 4⟩] 1 true
    ∧ (1 : Nat)
      = [(⟨"A", "", "위치 미상", ⟨2025, 1, 1⟩, ⟨2025, 1, 2⟩, 4⟩ : Event)].length :=
  ⟨by decide,
   C1_count_eq_staged [[("t", "A"), ("s", "2025-01-01"), ("e", "2025-01-02")]]
     4 demoKeyMap
     [⟨"A", "", "위치 미상", ⟨2025, 1, 1⟩, ⟨2025, 1, 2⟩, 4⟩] 1 true (by decide)⟩

end EventDB

namespace EventDB

theorem processRecord_eq_recCore (item : Record) (cat_id : Int) (km : KeyMap)
    (tk lk dk sk ek : String)
    (ht : km.lookup "title" = some tk) (hl : km.lookup "location" = some lk)
    (hd : km.lookup "description" = some dk)
    (hs : km.lookup "start_date" = some sk)
    (he : km.lookup "end_date" = some ek) :
    processRecord item cat_id km = recCore item cat_id tk lk dk sk ek := by
  unfold processRecord recCore
  rw [ht, hl, hd, hs, he]

theorem parseDate_empty : parseDate "" = none := by decide

/-- Claim C2: a record whose mapped start-date or end-date value is missing,
empty, or not parseable in `%Y-%m-%d` format is skipped: no row is staged,
nothing is raised out of the batch, and the loop continues with the remaining
records exactly as if the record were not there. -/
theorem C2_bad_dates_skipped (item : Record) (cat_id : Int) (km : KeyMap)
    (tk lk dk sk ek : String)
    (ht : km.lookup "title" = some tk) (hl : km.lookup "location" = some lk)
    (hd : km.lookup "description" = some dk)
    (hs : km.lookup "start_date" = some sk)
    (he : km.lookup "end_date" = some ek)
    (hbad : isBlank (item.lookup sk) = true ∨ isBlank (item.lookup ek) = true
      ∨ (∃ s, item.lookup sk = some s ∧ parseDate s = none)
      ∨ (∃ s, item.lookup ek = some s ∧ parseDate s = none)) :
    processRecord item cat_id km = .skipped
    ∧ ∀ (rest : List Record) (acc : List Event) (n : Nat),
        loadGo cat_id km (item :: rest) acc n = loadGo cat_id km rest acc n := by
  have hskip : processRecord item cat_id km = .skipped := by
    rw [processRecord_eq_recCore item cat_id km tk lk dk sk ek ht hl hd hs he]
    unfold recCore
    by_cases hb : (isBlank (item.lookup sk) || isBlank (item.lookup ek)) = true
    · simp [hb]
    · simp only [Bool.or_eq_true, not_or] at hb
      obtain ⟨hb1, hb2⟩ := hb
      rcases hbad with h | h | ⟨s, h1, h2⟩ | ⟨s, h1, h2⟩
      · exact absurd h hb1
      · exact absurd h hb2
      · rw [h1] at hb1 ⊢
        simp only [Option.getD_some, h2]
        simp [Bool.or_eq_true, isBlank, hb1, hb2]
      · rw [h1] at hb2 ⊢
        simp only [Option.getD_some, h2]
        cases parseDate ((item.lookup sk).getD "") <;>
          simp [Bool.or_eq_true, isBlank, hb1, hb2]
  refine ⟨hskip, ?_⟩
  intro rest acc n
  simp only [loadGo, hskip]

theorem C2_witness :
    processRecord [("t", "X"), ("s", "2025-01-01")] 3 demoKeyMap
      = RecResult.skipped :=
  (C2_bad_dates_skipped [("t", "X"), ("s", "2025-01-01")] 3 demoKeyMap
    "t" "l" "d" "s" "e" (by decide) (by decide) (by decide) (by decide)
    (by decide) (Or.inr (Or.inl (by decide)))).1

/-- Claim C3 (refuting the claim's universality, confirming the spec's
intent): when the logical name `title` is absent from the field map, the
per-record `except` handler's own log line evaluates `key_map['title']` and
re-raises `KeyError`, so the first bad record aborts the whole batch — the
second record is never processed and `db.session.commit()` never runs. -/
theorem C3_missing_title_aborts :
    load_data_into_db [[("x", "y")], [("a", "b")]] 7
      [("location", "loc"), ("description", "d"),
       ("start_date", "s"), ("end_date", "e")]
    = .raised [] := by decide

/-- Claim C7: the worked example from the spec: one fully-mapped record
inserts exactly one event with the mapped fields, default description, the
given category id, and count 1; with the end-date key omitted the loader
returns 0 and stages nothing (the commit still runs, over an empty stage). -/
theorem C7_spring_fair (cid : Int) :
    load_data_into_db
        [[("name_key", "Spring Fair"), ("loc_key", "Park"),
          ("start_key", "2025-06-01"), ("end_key", "2025-06-03")]] cid
        [("title", "name_key"), ("location", "loc_key"),
         ("start_date", "start_key"), ("end_date", "end_key"),
         ("description", "desc_key")]
      = .returned [⟨"Spring Fair", "", "Park", ⟨2025, 6, 1⟩, ⟨2025, 6, 3⟩, cid⟩]
          1 true
    ∧ load_data_into_db
        [[("name_key", "Spring Fair"), ("loc_key", "Park"),
          ("start_key", "2025-06-01")]] cid
        [("title", "name_key"), ("location", "loc_key"),
         ("start_date", "start_key"), ("end_date", "end_key"),
         ("description", "desc_key")]
      = .returned [] 0 true :=
  ⟨rfl, rfl⟩

end EventDB

namespace EventDB

/-- Claim C10: the placeholder defaults for title, location and description
apply only when the mapped source key is entirely absent: a key present with
an empty-string value is staged verbatim (so an event can be inserted with
empty title or location); an empty-string value under the mapped start-date
key skips the record instead; and an empty input list returns 0 with nothing
staged and no commit. -/
theorem C10_defaults_only_when_absent (cat_id : Int) (km : KeyMap)
    (tk lk dk sk ek : String)
    (ht : km.lookup "title" = some tk) (hl : km.lookup "location" = some lk)
    (hd : km.lookup "description" = some dk)
    (hs : km.lookup "start_date" = some sk)
    (he : km.lookup "end_date" = some ek) :
    (∀ (item : Record) (s e : String) (sd ed : Date),
        item.lookup sk = some s → parseDate s = some sd →
        item.lookup ek = some e → parseDate e = some ed →
        processRecord item cat_id km =
          .staged ⟨(item.lookup tk).getD "제목 없음", (item.lookup dk).getD "",
                   (item.lookup lk).getD "위치 미상", sd, ed, cat_id⟩)
    ∧ (∀ item : Record, item.lookup sk = some "" →
        processRecord item cat_id km = .skipped)
    ∧ load_data_into_db [] cat_id km = .returned [] 0 false := by
  refine ⟨?_, ?_, rfl⟩
  · intro item s e sd ed hls hps hle hpe
    rw [processRecord_eq_recCore item cat_id km tk lk dk sk ek ht hl hd hs he]
    unfold recCore
    have hsne : s ≠ "" := by
      intro h
      rw [h, parseDate_empty] at hps
      exact Option.noConfusion hps
    have hene : e ≠ "" := by
      intro h
      rw [h, parseDate_empty] at hpe
      exact Option.noConfusion hpe
    rw [hls, hle]
    simp only [Option.getD_some, hps, hpe]
    simp [isBlank, hsne, hene]
  · intro item hls
    rw [processRecord_eq_recCore item cat_id km tk lk dk sk ek ht hl hd hs he]
    unfold recCore
    rw [hls]
    simp [isBlank]

theorem C10_witness :
    processRecord [("t", ""), ("l", ""), ("s", "2025-03-01"), ("e", "2025-03-02")]
        2 demoKeyMap
      = .staged ⟨"", "", "", ⟨2025, 3, 1⟩, ⟨2025, 3, 2⟩, 2⟩
    ∧ processRecord [("t", "X"), ("s", ""), ("e", "2025-03-02")] 2 demoKeyMap
      = .skipped
    ∧ load_data_into_db [] 2 demoKeyMap = .returned [] 0 false := by
  have h := C10_defaults_only_when_absent 2 demoKeyMap "t" "l" "d" "s" "e"
      (by decide) (by decide) (by decide) (by decide) (by decide)
  exact ⟨h.1 [("t", ""), ("l", ""), ("s", "2025-03-01"), ("e", "2025-03-02")]
      "2025-03-01" "2025-03-02" ⟨2025, 3, 1⟩ ⟨2025, 3, 2⟩
      (by decide) (by decide) (by decide) (by decide),
    h.2.1 [("t", "X"), ("s", ""), ("e", "2025-03-02")] (by decide),
    h.2.2⟩

end EventDB

namespace EventDB

theorem seedStep_of_mem {acc : List String} {name : String} (h : name ∈ acc) :
    seedStep acc name = acc := by
  unfold seedStep
  rw [if_pos h]

theorem seedStep_of_not_mem {acc : List String} {name : String} (h : name ∉ acc) :
    seedStep acc name = acc ++ [name] := by
  unfold seedStep
  rw [if_neg h]

theorem seedFold_count (names : List String) :
    ∀ (acc : List String) (n : String), n ∈ acc →
      (names.foldl seedStep acc).count n = acc.count n := by
  induction names with
  | nil => intro acc n _; rfl
  | cons hd tl ih =>
    intro acc n hn
    rw [List.foldl_cons]
    by_cases hhd : hd ∈ acc
    · rw [seedStep_of_mem hhd]
      exact ih acc n hn
    · rw [seedStep_of_not_mem hhd]
      have hmem : n ∈ acc ++ [hd] := List.mem_append_left _ hn
      rw [ih (acc ++ [hd]) n hmem, List.count_append]
      have hne : n ≠ hd := fun h => hhd (h ▸ hn)
      simp [List.count_singleton, hne]

theorem seedFold_mem (names : List String) :
    ∀ (acc : List String) (n : String), n ∈ acc →
      n ∈ names.foldl seedStep acc := by
  induction names with
  | nil => intro acc n hn; exact hn
  | cons hd tl ih =>
    intro acc n hn
    rw [List.foldl_cons]
    by_cases hhd : hd ∈ acc
    · rw [seedStep_of_mem hhd]; exact ih acc n hn
    · rw [seedStep_of_not_mem hhd]
      exact ih _ n (List.mem_append_left _ hn)

theorem seedFold_nodup (names : List String) :
    ∀ acc : List String, acc.Nodup → (names.foldl seedStep acc).Nodup := by
  induction names with
  | nil => intro acc h; exact h
  | cons hd tl ih =>
    intro acc h
    rw [List.foldl_cons]
    by_cases hhd : hd ∈ acc
    · rw [seedStep_of_mem hhd]; exact ih acc h
    · rw [seedStep_of_not_mem hhd]
      refine ih _ ?_
      simpa [List.nodup_append] using ⟨h, hhd⟩

theorem seedFold_mem_names (names : List String) :
    ∀ (acc : List String) (n : String), n ∈ names →
      n ∈ names.foldl seedStep acc := by
  induction names with
  | nil => intro acc n hn; cases hn
  | cons hd tl ih =>
    intro acc n hn
    rw [List.foldl_cons]
    rcases List.mem_cons.1 hn with h | h
    · subst h
      by_cases hhd : n ∈ acc
      · rw [seedStep_of_mem hhd]; exact seedFold_mem tl acc n hhd
      · rw [seedStep_of_not_mem hhd]
        exact seedFold_mem tl _ n
          (List.mem_append_right _ (List.mem_singleton.2 rfl))
    · exact ih _ n h

theorem seedFold_fix (names : List String) :
    ∀ acc : List String, (∀ n ∈ names, n ∈ acc) →
      names.foldl seedStep acc = acc := by
  induction names with
  | nil => intro acc _; rfl
  | cons hd tl ih =>
    intro acc h
    rw [List.foldl_cons, seedStep_of_mem (h hd (List.mem_cons_self hd tl))]
    exact ih acc (fun n hn => h n (List.mem_cons_of_mem hd hn))

/-- Claim C6: the category-seeding step never duplicates a `Category` row:
it preserves freedom from duplicates, a seed name already present is not
inserted again (its multiplicity is unchanged), and running the seed step a
second time changes nothing. -/
theorem C6_seed_no_duplicates (cats : List String) :
    (cats.Nodup → (seedCategories cats).Nodup)
    ∧ (∀ n, n ∈ cats → (seedCategories cats).count n = cats.count n)
    ∧ seedCategories (seedCategories cats) = seedCategories cats := by
  refine ⟨fun h => seedFold_nodup categories_list cats h,
    fun n hn => seedFold_count categories_list cats n hn, ?_⟩
  unfold seedCategories
  exact seedFold_fix categories_list _
    (fun n hn => seedFold_mem_names categories_list cats n hn)

theorem C6_witness :
    (seedCategories categories_list).Nodup
    ∧ (seedCategories categories_list).count "축제" = categories_list.count "축제"
    ∧ seedCategories (seedCategories categories_list)
      = seedCategories categories_list :=
  ⟨(C6_seed_no_duplicates categories_list).1 (by decide),
   (C6_seed_no_duplicates categories_list).2.1 "축제" (by decide),
   (C6_seed_no_duplicates categories_list).2.2⟩

end EventDB

namespace EventDB

theorem processRecord_ne_abort (item : Record) (cat_id : Int) (km : KeyMap)
    (tk : String) (ht : km.lookup "title" = some tk) :
    processRecord item cat_id km ≠ .abort := by
  intro h
  unfold processRecord at h
  simp only [ht] at h
  rcases hl : List.lookup "location" km with _ | lk <;> simp only [hl] at h
  · exact absurd h (by decide)
  rcases hd : List.lookup "description" km with _ | dk <;> simp only [hd] at h
  · exact absurd h (by decide)
  rcases hs : List.lookup "start_date" km with _ | sk <;> simp only [hs] at h
  · exact absurd h (by decide)
  rcases he2 : List.lookup "end_date" km with _ | ek <;> simp only [he2] at h
  · exact absurd h (by decide)
  split at h
  · simp at h
  · split at h <;> simp at h

theorem loadGo_no_raise (cat_id : Int) (km : KeyMap) (tk : String)
    (ht : km.lookup "title" = some tk) :
    ∀ (data : List Record) (acc : List Event) (n : Nat),
      ∃ st c, loadGo cat_id km data acc n = .returned st c true := by
  intro data
  induction data with
  | nil => intro acc n; exact ⟨acc, n, rfl⟩
  | cons item rest ih =>
    intro acc n
    have hne := processRecord_ne_abort item cat_id km tk ht
    cases hp : processRecord item cat_id km
    case staged e =>
      obtain ⟨st, c, h⟩ := ih (acc ++ [e]) (n + 1)
      exact ⟨st, c, by simp only [loadGo, hp]; exact h⟩
    case skipped =>
      obtain ⟨st, c, h⟩ := ih acc n
      exact ⟨st, c, by simp only [loadGo, hp]; exact h⟩
    case logged =>
      obtain ⟨st, c, h⟩ := ih acc n
      exact ⟨st, c, by simp only [loadGo, hp]; exact h⟩
    case abort => exact absurd hp hne

theorem load_ok (d : List Record) (cid : Int) (km : KeyMap) (tk : String)
    (ht : km.lookup "title" = some tk) :
    ∃ st c cm, load_data_into_db d cid km = .returned st c cm := by
  unfold load_data_into_db
  by_cases he : d.isEmpty
  · rw [if_pos he]; exact ⟨[], 0, false, rfl⟩
  · rw [if_neg he]
    obtain ⟨st, c, h⟩ := loadGo_no_raise cid km tk ht d [] 0
    exact ⟨st, c, true, h⟩

theorem importDataset_ok (evs : List Event) (cats : List String) (name : String)
    (km : KeyMap) (d : Option (List Record)) (tk : String)
    (ht : km.lookup "title" = some tk) :
    ∃ evs', importDataset evs cats name km d = .ok evs' := by
  cases d with
  | none => exact ⟨evs, rfl⟩
  | some l =>
    by_cases he : l.isEmpty
    · refine ⟨evs, ?_⟩
      simp only [importDataset]
      rw [if_pos he]
    · cases hc : categoryId cats name with
      | none =>
        refine ⟨evs, ?_⟩
        simp [importDataset, he, hc]
      | some cid =>
        obtain ⟨st, c, cm, h⟩ := load_ok l (Int.ofNat cid) km tk ht
        refine ⟨evs ++ st, ?_⟩
        simp only [importDataset, if_neg he, hc]
        rw [h]

theorem initRebuild_ok (os : Option Store) (fd pd : Option (List Record)) :
    ∃ evs, initRebuild os fd pd
      = .ok (some ⟨seedCategories (categoriesOf os), evs⟩) := by
  have hcat : (os.getD (⟨[], []⟩ : Store)).categories = categoriesOf os := by
    cases os <;> rfl
  obtain ⟨ev1, h1⟩ := importDataset_ok (os.getD ⟨[], []⟩).events
    (seedCategories (os.getD ⟨[], []⟩).categories) "축제" festival_key_map fd
    "축제명" rfl
  obtain ⟨ev2, h2⟩ := importDataset_ok ev1
    (seedCategories (os.getD ⟨[], []⟩).categories) "공연" performance_key_map pd
    "행사명" rfl
  refine ⟨ev2, ?_⟩
  simp only [initRebuild, h1, h2]
  rw [hcat]

theorem init_db_eq (os : Option Store) (fd pd : Option (List Record)) :
    init_db os fd pd =
      if initTriggered os then initRebuild (removeIfStale os) fd pd
      else .ok os := by
  cases os with
  | none => simp [init_db, initTriggered, removeIfStale, categoriesOf, eventsOf]
  | some s =>
    by_cases h1 : s.categories.isEmpty
    · simp [init_db, initTriggered, removeIfStale, categoriesOf, eventsOf, h1]
    · by_cases h2 : s.categories.length = 5
      · by_cases h3 : s.events.isEmpty <;>
          simp [init_db, initTriggered, removeIfStale, categoriesOf, eventsOf,
            h1, h2, h3]
      · simp [init_db, initTriggered, removeIfStale, categoriesOf, eventsOf,
          h1, h2, bne_iff_ne]

end EventDB

namespace EventDB

/-- Claim C4 counterexample: a store that exists, has a nonempty `Category`
table, and holds exactly the expected 5 categories — so none of the claim's
trigger conditions hold — is nonetheless NOT treated as final: its empty
`event` table sends `init_db` through the rebuild branch, which imports the
festival dataset and changes the store. -/
theorem C4_counterexample :
    init_db (some ⟨categories_list, []⟩)
        (some [[("축제명", "F"), ("개최장소", "L"),
                ("축제시작일자", "2025-06-01"), ("축제종료일자", "2025-06-02")]]) none
      ≠ Except.ok (some ⟨categories_list, []⟩) := by decide

/-- Claim C4 (amended): `init_db` (re)initializes if and only if the
persisted store does not exist, or the `Category` table is empty, or the
persisted category count differs from 5, **or the `Event` table is empty**
(`initTriggered`); when none of these hold it skips schema creation, category
seeding and all dataset imports and returns the store unchanged, and when one
holds it runs the rebuild branch after deleting the store exactly when the
store exists with a nonempty category table whose count differs from 5. -/
theorem C4_trigger_iff (os : Option Store) (fd pd : Option (List Record)) :
    (initTriggered os = false → init_db os fd pd = .ok os)
    ∧ (initTriggered os = true →
        init_db os fd pd = initRebuild (removeIfStale os) fd pd) := by
  rw [init_db_eq os fd pd]
  constructor
  · intro h
    rw [if_neg]
    simp [h]
  · intro h
    rw [if_pos h]

theorem C4_witness :
    init_db (some ⟨categories_list, [demoEvent]⟩) none none
      = .ok (some ⟨categories_list, [demoEvent]⟩)
    ∧ init_db none none none = initRebuild none none none :=
  ⟨(C4_trigger_iff (some ⟨categories_list, [demoEvent]⟩) none none).1 (by decide),
   (C4_trigger_iff none none none).2 (by decide)⟩

/-- Claim C5: whenever the persisted category count differs from the expected
5 (including the store being absent), running `init_db` leaves a store whose
`Category` table holds exactly the 5 expected rows: either the mismatching
store is deleted and reseeded from scratch, or the empty category table is
seeded in place. -/
theorem C5_mismatch_rebuilds_five (os : Option Store)
    (fd pd : Option (List Record))
    (h : (categoriesOf os).length ≠ 5) :
    ∃ s, init_db os fd pd = .ok (some s) ∧ s.categories.length = 5 := by
  have htrig : initTriggered os = true := by
    cases os with
    | none => rfl
    | some s =>
      simp only [initTriggered, Bool.or_eq_true, bne_iff_ne, ne_eq]
      exact Or.inl (Or.inr (by simpa [categoriesOf] using h))
  have hrm : categoriesOf (removeIfStale os) = [] := by
    cases os with
    | none => rfl
    | some s =>
      simp only [removeIfStale]
      by_cases hemp : s.categories.isEmpty
      · rw [if_neg (by simp [hemp])]
        simpa [categoriesOf, List.isEmpty_iff] using hemp
      · rw [if_pos ?_]
        · rfl
        · simp only [Bool.and_eq_true, Bool.not_eq_true', bne_iff_ne, ne_eq]
          refine ⟨by simpa using hemp, by simpa [categoriesOf] using h⟩
  rw [init_db_eq os fd pd, if_pos htrig]
  obtain ⟨evs, he⟩ := initRebuild_ok (removeIfStale os) fd pd
  rw [he, hrm]
  exact ⟨⟨seedCategories [], evs⟩, rfl, rfl⟩

theorem C5_witness :
    ∃ s, init_db (some ⟨["a", "b", "c"], []⟩) none none = .ok (some s)
      ∧ s.categories.length = 5 :=
  C5_mismatch_rebuilds_five (some ⟨["a", "b", "c"], []⟩) none none (by decide)

end EventDB

namespace EventDB

/-- Claim C8: `event_list` returns exactly the stored events whose end date
is on or after the given date (as a multiset), sorted by start date
ascending; in particular, against a store holding events ending 2025-06-01
and 2025-06-05, the query for 2025-06-02 returns only the second event. -/
theorem C8_filter_and_order (events : List Event) (today : Date) :
    (event_list events today).Perm
        (events.filter (fun e => dateLe today e.end_date))
    ∧ (event_list events today).Sorted startLe
    ∧ event_list
        [⟨"A", "", "L1", ⟨2025, 5, 20⟩, ⟨2025, 6, 1⟩, 1⟩,
         ⟨"B", "", "L2", ⟨2025, 6, 4⟩, ⟨2025, 6, 5⟩, 1⟩] ⟨2025, 6, 2⟩
      = [⟨"B", "", "L2", ⟨2025, 6, 4⟩, ⟨2025, 6, 5⟩, 1⟩] :=
  ⟨List.perm_insertionSort startLe _, List.sorted_insertionSort startLe _,
   by decide⟩

end EventDB

namespace EventDB

/-- Claim C9: an edit via `event_detail`'s POST branch is all-or-nothing: the
stored event afterwards is either exactly the original (every failure —
missing field, malformed date, non-integer category id — rolls back all
pending field assignments) or exactly the event built from all submitted
fields; in particular a malformed start date or category id always leaves the
event unchanged, and no mixture of old and new fields is ever committed. -/
theorem C9_update_all_or_nothing (event : Event) (form : Record) :
    (event_detail_stored event form = event
      ∨ ∃ t l sds eds cs sd ed cid,
          form.lookup "title" = some t ∧ form.lookup "location" = some l
          ∧ form.lookup "start_date" = some sds ∧ parseDate sds = some sd
          ∧ form.lookup "end_date" = some eds ∧ parseDate eds = some ed
          ∧ form.lookup "category_id" = some cs ∧ parseIntStr cs = some cid
          ∧ event_detail_stored event form
            = ⟨t, (form.lookup "description").getD "", l, sd, ed, cid⟩)
    ∧ (∀ sds, form.lookup "start_date" = some sds → parseDate sds = none →
        event_detail_stored event form = event)
    ∧ (∀ cs, form.lookup "category_id" = some cs → parseIntStr cs = none →
        event_detail_stored event form = event) := by
  refine ⟨?_, ?_, ?_⟩
  · unfold event_detail_stored event_detail_post
    rcases h1 : List.lookup "title" form with _ | t
    · exact Or.inl (by simp only [h1])
    simp only [h1]
    rcases h2 : List.lookup "location" form with _ | l
    · exact Or.inl (by simp only [h2])
    simp only [h2]
    rcases h3 : List.lookup "start_date" form with _ | sds
    · exact Or.inl (by simp only [h3])
    simp only [h3]
    rcases h4 : parseDate sds with _ | sd
    · exact Or.inl (by simp only [h4])
    simp only [h4]
    rcases h5 : List.lookup "end_date" form with _ | eds
    · exact Or.inl (by simp only [h5])
    simp only [h5]
    rcases h6 : parseDate eds with _ | ed
    · exact Or.inl (by simp only [h6])
    simp only [h6]
    rcases h7 : List.lookup "category_id" form with _ | cs
    · exact Or.inl (by simp only [h7])
    simp only [h7]
    rcases h8 : parseIntStr cs with _ | cid
    · exact Or.inl (by simp only [h8])
    simp only [h8]
    exact Or.inr ⟨t, l, sds, eds, cs, sd, ed, cid, rfl, rfl, rfl, h4, rfl,
      h6, rfl, h8, rfl⟩
  · intro sds hs hp
    unfold event_detail_stored event_detail_post
    rcases h1 : List.lookup "title" form with _ | t
    · simp only [h1]
    simp only [h1]
    rcases h2 : List.lookup "location" form with _ | l
    · simp only [h2]
    simp only [h2]
    simp only [hs, hp]
  · intro cs hc hpc
    unfold event_detail_stored event_detail_post
    rcases h1 : List.lookup "title" form with _ | t
    · simp only [h1]
    simp only [h1]
    rcases h2 : List.lookup "location" form with _ | l
    · simp only [h2]
    simp only [h2]
    rcases h3 : List.lookup "start_date" form with _ | sds
    · simp only [h3]
    simp only [h3]
    rcases h4 : parseDate sds with _ | sd
    · simp only [h4]
    simp only [h4]
    rcases h5 : List.lookup "end_date" form with _ | eds
    · simp only [h5]
    simp only [h5]
    rcases h6 : parseDate eds with _ | ed
    · simp only [h6]
    simp only [h6]
    simp only [hc, hpc]

theorem C9_witness :
    event_detail_stored demoEvent
        [("title", "T"), ("location", "L"), ("start_date", "2025-13-40"),
         ("end_date", "2025-01-01"), ("category_id", "1")]
      = demoEvent
    ∧ event_detail_stored demoEvent
        [("title", "T"), ("location", "L"), ("start_date", "2025-01-01"),
         ("end_date", "2025-01-02"), ("category_id", "x")]
      = demoEvent :=
  ⟨(C9_update_all_or_nothing demoEvent
      [("title", "T"), ("location", "L"), ("start_date", "2025-13-40"),
       ("end_date", "2025-01-01"), ("category_id", "1")]).2.1
      "2025-13-40" (by decide) (by decide),
   (C9_update_all_or_nothing demoEvent
      [("title", "T"), ("location", "L"), ("start_date", "2025-01-01"),
       ("end_date", "2025-01-02"), ("category_id", "x")]).2.2
      "x" (by decide) (by decide)⟩

end EventDB
